import Mathlib

set_option maxRecDepth 100000

/-!
# Verification of the technical-analysis engine

Shallow embedding of the indicator / signal / backtest / order-sizing core of
the dashboard (src/indicators.py, src/signals.py, src/backtest.py,
src/order_info.py).  Prices are embedded as rationals; the pandas "NaN"
undefined marker is embedded as `Option` (`none` = NaN).  Pandas comparison
semantics are kept: any comparison against NaN is `false`.
-/

namespace TA

/-- `data.rolling(window=w).mean()` with the pandas default
`min_periods = w`: entry `i` is `none` (NaN) while the window has not yet
filled (`i + 1 < w`), and otherwise the arithmetic mean of
`data[i+1-w .. i]`. -/
def rollingMean (data : List ℚ) (w : ℕ) : List (Option ℚ) :=
  (List.range data.length).map fun i =>
    if i + 1 < w then none
    else some (((data.drop (i + 1 - w)).take w).sum / (w : ℚ))

/-- `calculate_sma` (src/indicators.py): `data.rolling(window=window).mean()`. -/
def calculate_sma (data : List ℚ) (window : ℕ) : List (Option ℚ) :=
  rollingMean data window

/-- One step of the `adjust=False` exponentially weighted mean recurrence. -/
def emaGo (a : ℚ) (prev : ℚ) : List ℚ → List ℚ
  | [] => []
  | x :: xs =>
    let y := a * x + (1 - a) * prev
    y :: emaGo a y xs

/-- `calculate_ema` (src/indicators.py): `data.ewm(span=window, adjust=False).mean()`.
With `adjust=False` and the default `min_periods=0`, pandas produces a value at
every row: the first output equals the first input and each later output
follows `y[i] = a*x[i] + (1-a)*y[i-1]` with `a = 2/(span+1)`. -/
def calculate_ema (data : List ℚ) (window : ℕ) : List ℚ :=
  match data with
  | [] => []
  | x :: xs => x :: emaGo (2 / ((window : ℚ) + 1)) x xs

/-- Auxiliary for `diffList`: consecutive differences given the previous value. -/
def diffGo (prev : ℚ) : List ℚ → List (Option ℚ)
  | [] => []
  | x :: xs => some (x - prev) :: diffGo x xs

/-- `data.diff()`: first entry NaN, then consecutive differences. -/
def diffList (data : List ℚ) : List (Option ℚ) :=
  match data with
  | [] => []
  | x :: xs => none :: diffGo x xs

/-- The gain column of `calculate_rsi`: `delta.where(delta > 0, 0.0)`.
Note the pandas `where` replaces every entry whose condition is false by the
fill value, *including the leading NaN of `diff`* (`NaN > 0` is false), so the
gain series has no NaN at index 0. -/
def gainOf (d : Option ℚ) : ℚ :=
  match d with
  | some x => if 0 < x then x else 0
  | none => 0

/-- The loss column of `calculate_rsi`: `(-delta).where(delta < 0, 0.0)`;
as with the gains, the leading NaN of `diff` is replaced by `0`. -/
def lossOf (d : Option ℚ) : ℚ :=
  match d with
  | some x => if x < 0 then -x else 0
  | none => 0

/-- Pointwise RSI from the rolling average gain and loss, following the float
semantics of `rs = avg_gain/avg_loss; rsi = 100 - 100/(1+rs)`:
if either average is NaN the result is NaN; if `avg_loss = 0` then
`rs = avg_gain/0` is `+inf` when `avg_gain > 0` (so `rsi = 100`) and NaN when
`avg_gain = 0` (the `0/0` case, so `rsi` is NaN); otherwise the arithmetic is
exact and stays in ℚ. -/
def rsiPoint (g : Option ℚ) (l : Option ℚ) : Option ℚ :=
  match g, l with
  | some g, some l =>
    if l = 0 then (if g = 0 then none else some 100)
    else some (100 - 100 / (1 + g / l))
  | _, _ => none

/-- `calculate_rsi` (src/indicators.py): `delta = data.diff()`, the gain and
loss columns of `delta`, their rolling means over `window`, and the pointwise
`100 - 100/(1 + avg_gain/avg_loss)`. -/
def calculate_rsi (data : List ℚ) (window : ℕ) : List (Option ℚ) :=
  List.zipWith rsiPoint
    (rollingMean ((diffList data).map gainOf) window)
    (rollingMean ((diffList data).map lossOf) window)

/-- None-propagating addition (`NaN + x = NaN`). -/
def optAdd (a b : Option ℚ) : Option ℚ :=
  match a, b with
  | some a, some b => some (a + b)
  | _, _ => none

/-- None-propagating subtraction. -/
def optSub (a b : Option ℚ) : Option ℚ :=
  match a, b with
  | some a, some b => some (a - b)
  | _, _ => none

/-- None-propagating multiplication by a constant. -/
def optScale (k : ℚ) (a : Option ℚ) : Option ℚ :=
  a.map (fun x => k * x)

/-- None-propagating division; a NaN operand or a zero/NaN denominator of the
`bandwidth` formula yields NaN in floats only for `0/0`; in the Bollinger
pipeline the denominator is the (possibly NaN) middle band, so we propagate
`none` and otherwise divide in ℚ. -/
def optDiv (a b : Option ℚ) : Option ℚ :=
  match a, b with
  | some a, some b => some (a / b)
  | _, _ => none

/-- `data.rolling(window=w).std()` (sample standard deviation, `ddof = 1`).
The square root of a rational is irrational in general, so the numeric value
cannot live in ℚ; every claim below concerns only *definedness* of the
Bollinger outputs, so we embed the rolling sample *variance* (the square of
pandas' rolling std), which is NaN at exactly the same indices as the rolling
std: while the window has not filled, and everywhere when `w = 1` (the
`ddof = 1` divisor `w - 1` vanishes, giving `0/0` = NaN). -/
def rollingStdSq (data : List ℚ) (w : ℕ) : List (Option ℚ) :=
  (List.range data.length).map fun i =>
    if i + 1 < w ∨ w < 2 then none
    else
      let win := (data.drop (i + 1 - w)).take w
      let m := win.sum / (w : ℚ)
      some ((win.map (fun x => (x - m) ^ 2)).sum / ((w : ℚ) - 1))

/-- The four output columns of `calculate_bollinger_bands`. -/
structure BollingerBands where
  middle : List (Option ℚ)
  upper : List (Option ℚ)
  lower : List (Option ℚ)
  bandwidth : List (Option ℚ)

/-- `calculate_bollinger_bands` (src/indicators.py):
`middle = SMA(window)`, `std = rolling std`, `upper/lower = middle ± num_std*std`,
`bandwidth = (upper - lower)/middle*100`.  See `rollingStdSq` for how the
irrational square root is embedded; `num_std` scales the (squared) deviation
column, which leaves definedness untouched. -/
def calculate_bollinger_bands (data : List ℚ) (window : ℕ) (num_std : ℚ) :
    BollingerBands :=
  let middle := calculate_sma data window
  let std := rollingStdSq data window
  let upper := List.zipWith optAdd middle (std.map (optScale num_std))
  let lower := List.zipWith optSub middle (std.map (optScale num_std))
  let bandwidth :=
    (List.zipWith optDiv (List.zipWith optSub upper lower) middle).map (optScale 100)
  ⟨middle, upper, lower, bandwidth⟩

/-! ## Signal detector (src/signals.py) -/

/-- The two signal kinds emitted by `detect_ma_crossovers`. -/
inductive SignalType where
  | golden_cross
  | dead_cross
deriving DecidableEq

/-- One row of the indicator frame handed to `detect_ma_crossovers`:
the row's position (standing for the date index), its Close price and the
short/long moving-average columns (`none` = NaN). -/
structure MARow where
  idx : ℕ
  close : ℚ
  maShort : Option ℚ
  maLong : Option ℚ
deriving DecidableEq

/-- A detected signal (signal type, date index, Close price, polarity). -/
structure Signal where
  signal_type : SignalType
  idx : ℕ
  price : ℚ
  is_bullish : Bool
deriving DecidableEq

/-- The boolean column `short_above = df[short_ma] > df[long_ma]`.
Pandas comparisons against NaN are `false`. -/
def short_above (r : MARow) : Bool :=
  match r.maShort, r.maLong with
  | some s, some l => decide (l < s)
  | _, _ => false

/-- `Series.diff()` on a *boolean* series.  Pandas documents that for boolean
dtypes `diff` uses `operator.xor`, not subtraction: entry 0 is NaN and entry
`i` is `b[i] XOR b[i-1]`. -/
def boolDiffGo (prev : Bool) : List Bool → List (Option Bool)
  | [] => []
  | b :: bs => some (xor b prev) :: boolDiffGo b bs

/-- `df_copy["short_above"].diff()` as used by `detect_ma_crossovers`. -/
def crossoverCol (rows : List MARow) : List (Option Bool) :=
  match rows.map short_above with
  | [] => []
  | b :: bs => none :: boolDiffGo b bs

/-- `detect_ma_crossovers` (src/signals.py): walk the rows, skip rows whose
`crossover` entry is NaN, emit a golden-cross signal where it equals `True`
and a dead-cross signal where it equals `False`. -/
def detect_ma_crossovers (rows : List MARow) : List Signal :=
  (rows.zip (crossoverCol rows)).filterMap fun rc =>
    match rc.2 with
    | none => none
    | some true => some ⟨SignalType.golden_cross, rc.1.idx, rc.1.close, true⟩
    | some false => some ⟨SignalType.dead_cross, rc.1.idx, rc.1.close, false⟩

/-- Modelled from the spec (§4.2 MA crossover), for comparison with
`detect_ma_crossovers`: the (short > long) state of a row, defined only when
both moving averages are defined. -/
def specAbove (r : MARow) : Option Bool :=
  match r.maShort, r.maLong with
  | some s, some l => some (decide (l < s))
  | _, _ => none

/-- Modelled from the spec (§4.2 MA crossover): at each row compare
(short > long) to the prior row's (short > long); a False→True transition
emits golden_cross, True→False emits dead_cross; rows where either series is
undefined are skipped and do not provide a "previous" state. -/
def spec_ma_crossovers (rows : List MARow) : List Signal :=
  (rows.zip ((none : Option (Option Bool)) :: rows.map (fun r => some (specAbove r)))).filterMap
    fun rp =>
    match specAbove rp.1, rp.2 with
    | some c, some (some p) =>
      if p = false ∧ c = true then
        some ⟨SignalType.golden_cross, rp.1.idx, rp.1.close, true⟩
      else if p = true ∧ c = false then
        some ⟨SignalType.dead_cross, rp.1.idx, rp.1.close, false⟩
      else none
    | _, _ => none

/-! ## Backtest engine (src/backtest.py) -/

/-- A single trade of the backtest ledger (`Trade` dataclass): entry
date-index and price, optional exit date-index and price (`none` while the
position is open). -/
structure Trade where
  entry_index : ℕ
  entry_price : ℚ
  exit_index : Option ℕ
  exit_price : Option ℚ
deriving DecidableEq

/-- `Trade.return_pct`: `(exit - entry)/entry * 100`, `none` while open. -/
def return_pct (t : Trade) : Option ℚ :=
  t.exit_price.map fun e => (e - t.entry_price) / t.entry_price * 100

/-- One row of the frame produced by `calculate_golden_cross_signals`:
date index, Close, the two SMA columns and the two boolean cross columns. -/
structure BtRow where
  idx : ℕ
  close : ℚ
  sma25 : Option ℚ
  sma75 : Option ℚ
  golden : Bool
  dead : Bool
deriving DecidableEq

/-- `a > b` on possibly-NaN operands (false when either is NaN). -/
def cmpGT (a b : Option ℚ) : Bool :=
  match a, b with
  | some a, some b => decide (b < a)
  | _, _ => false

/-- `a <= b` on possibly-NaN operands (false when either is NaN). -/
def cmpLE (a b : Option ℚ) : Bool :=
  match a, b with
  | some a, some b => decide (a ≤ b)
  | _, _ => false

/-- `a < b` on possibly-NaN operands (false when either is NaN). -/
def cmpLT (a b : Option ℚ) : Bool :=
  match a, b with
  | some a, some b => decide (a < b)
  | _, _ => false

/-- `a >= b` on possibly-NaN operands (false when either is NaN). -/
def cmpGE (a b : Option ℚ) : Bool :=
  match a, b with
  | some a, some b => decide (b ≤ a)
  | _, _ => false

/-- Builds the rows of `calculate_golden_cross_signals` from the zipped
(Close, SMA_25, SMA_75) columns, threading the previous row's SMA values
(the `shift(1)` columns; `none`/NaN before the first row). -/
def mkBtRows (i : ℕ) (p25 p75 : Option ℚ) :
    List (ℚ × Option ℚ × Option ℚ) → List BtRow
  | [] => []
  | (c, s25, s75) :: rest =>
    { idx := i, close := c, sma25 := s25, sma75 := s75,
      golden := cmpGT s25 s75 && cmpLE p25 p75,
      dead := cmpLT s25 s75 && cmpGE p25 p75 } :: mkBtRows (i + 1) s25 s75 rest

/-- `calculate_golden_cross_signals` (src/backtest.py): SMA_25 and SMA_75 of
Close, `golden_cross = (SMA_25 > SMA_75) & (SMA_25.shift(1) <= SMA_75.shift(1))`,
`dead_cross = (SMA_25 < SMA_75) & (SMA_25.shift(1) >= SMA_75.shift(1))`. -/
def calculate_golden_cross_signals (closes : List ℚ) : List BtRow :=
  mkBtRows 0 none none
    (closes.zip ((rollingMean closes 25).zip (rollingMean closes 75)))

/-- The loop state of `run_backtest_single`: the ledger of closed trades, the
optional open trade (the single `current_trade` variable — at most one
position can ever be open), and the equity curve *in reverse chronological
order* (head = latest equity; the Python list appends at the end). -/
structure BtState where
  trades : List Trade
  current : Option Trade
  equity : List ℚ
deriving DecidableEq

/-- The initial state: no trades, flat, equity curve `[100.0]`. -/
def btInit : BtState := ⟨[], none, [100]⟩

/-- One iteration of the `for date, row in df.iterrows()` loop of
`run_backtest_single`: rows with an undefined SMA are skipped; a golden cross
while flat opens a trade at the row's Close; a dead cross while long closes
the open trade at the row's Close, appends it to the ledger and compounds the
equity curve; anything else leaves the state unchanged. -/
def btStep (st : BtState) (r : BtRow) : BtState :=
  if r.sma25.isNone || r.sma75.isNone then st
  else if r.golden && st.current.isNone then
    { st with current := some ⟨r.idx, r.close, none, none⟩ }
  else
    match st.current with
    | some t =>
      if r.dead then
        let closed : Trade := { t with exit_index := some r.idx, exit_price := some r.close }
        let ret := (return_pct closed).getD 0
        { trades := st.trades ++ [closed], current := none,
          equity := st.equity.headD 0 * (1 + ret / 100) :: st.equity }
      else st
    | none => st

/-- The state after folding the trade loop over a whole close series. -/
def btLoop (closes : List ℚ) : BtState :=
  (calculate_golden_cross_signals closes).foldl btStep btInit

/-- The force-close step after the loop: if a position is still open it is
closed at the *last* row's Close (`df.index[-1]`, `df['Close'].iloc[-1]`),
appended to the ledger, and the equity curve is compounded once more. -/
def forceClose (closes : List ℚ) (st : BtState) : BtState :=
  match st.current, closes.getLast? with
  | some t, some c =>
    let closed : Trade :=
      { t with exit_index := some (closes.length - 1), exit_price := some c }
    let ret := (return_pct closed).getD 0
    { trades := st.trades ++ [closed], current := none,
      equity := st.equity.headD 0 * (1 + ret / 100) :: st.equity }
  | _, _ => st

/-- The full trade-simulation core of `run_backtest_single` (signal
computation, trade loop, force close), before the metrics block. -/
def run_backtest_core (closes : List ℚ) : BtState :=
  forceClose closes (btLoop closes)

/-- `BacktestResult` (src/backtest.py), minus the ticker string. -/
structure BacktestResult where
  total_trades : ℕ
  winning_trades : ℕ
  losing_trades : ℕ
  win_rate : ℚ
  avg_return : ℚ
  total_return : ℚ
  max_drawdown : ℚ
  trades : List Trade
deriving DecidableEq

/-- `expanding().max()` (the running maximum of the equity curve), given the
chronological list. -/
def expandingMax : ℚ → List ℚ → List ℚ
  | _, [] => []
  | m, x :: xs => max m x :: expandingMax (max m x) xs

/-- `Series.min()` of a drawdown series: the minimum of a nonempty list. -/
def listMin : ℚ → List ℚ → ℚ
  | m, [] => m
  | m, x :: xs => listMin (min m x) xs

/-- The metrics block of `run_backtest_single` (lines 142-163): per-trade
returns, winners/losers, win rate, average return, compounded total return
from the equity curve, and maximum drawdown of the equity curve. -/
def btMetrics (st : BtState) : BacktestResult :=
  { total_trades := st.trades.length
    winning_trades := ((st.trades.filterMap return_pct).filter fun r => decide (0 < r)).length
    losing_trades := ((st.trades.filterMap return_pct).filter fun r => decide (r ≤ 0)).length
    win_rate :=
      if st.trades.length = 0 then 0
      else (((st.trades.filterMap return_pct).filter fun r => decide (0 < r)).length : ℚ) /
        (st.trades.length : ℚ) * 100
    avg_return :=
      if (st.trades.filterMap return_pct).length = 0 then 0
      else (st.trades.filterMap return_pct).sum / ((st.trades.filterMap return_pct).length : ℚ)
    total_return :=
      (st.equity.reverse.getLast?.getD 0 / st.equity.reverse.headD 0 - 1) * 100
    max_drawdown :=
      listMin
        ((List.zipWith (fun e m => (e - m) / m * 100) st.equity.reverse
            (expandingMax (st.equity.reverse.headD 0) st.equity.reverse)).headD 0)
        ((List.zipWith (fun e m => (e - m) / m * 100) st.equity.reverse
            (expandingMax (st.equity.reverse.headD 0) st.equity.reverse)).drop 1)
    trades := st.trades }

/-- `run_backtest_single` (src/backtest.py).  The data fetch is the one piece
outside the computational core: its outcome is the input, `none` standing for
a failed fetch (the `except` path returns `None`).  A fetched series that is
empty or shorter than 100 bars returns `None`; a run whose ledger is empty
(`if not trades`) returns `None`; otherwise the metrics are returned. -/
def run_backtest_single (fetched : Option (List ℚ)) : Option BacktestResult :=
  match fetched with
  | none => none
  | some closes =>
    if closes.length < 100 then none
    else if (run_backtest_core closes).trades.isEmpty then none
    else some (btMetrics (run_backtest_core closes))

/-- The error counting of `run_backtest_portfolio` (lines 180-188): every
symbol whose `run_backtest_single` result is `None` — failed fetch, short
series, or zero trades alike — increments `errors` (reported as
`stocks_with_errors`). -/
def portfolio_error_count (fetches : List (Option (List ℚ))) : ℕ :=
  (fetches.map run_backtest_single).countP Option.isNone

/-- `golden_cross` events observed over a close series: the rows of the signal
frame whose `golden_cross` column is set. -/
def goldenCount (closes : List ℚ) : ℕ :=
  ((calculate_golden_cross_signals closes).filter fun r => r.golden).length

/-! ## Order-sizing calculator (src/order_info.py) -/

/-- `OrderInfo` (src/order_info.py), minus the ticker/name identification
strings, which carry no computational content. -/
structure OrderInfo where
  current_price : ℚ
  entry_price : ℚ
  position_size_shares : ℤ
  position_size_value : ℚ
  stop_loss_price : ℚ
  stop_loss_percent : ℚ
  take_profit_price : ℚ
  take_profit_percent : ℚ
  risk_amount : ℚ
  reward_amount : ℚ
  risk_reward_ratio : ℚ
deriving DecidableEq

/-- Python `int()` on a rational: truncation toward zero. -/
def ratTrunc (q : ℚ) : ℤ :=
  if 0 ≤ q then ⌊q⌋ else ⌈q⌉

/-- `find_recent_swing_low` (src/order_info.py): `df.tail(lookback)["Low"].min()`,
i.e. the minimum Low over the trailing `lookback` rows; `none` when the frame
is empty (pandas' NaN `min` of an empty series). -/
def find_recent_swing_low (lows : List ℚ) (lookback : ℕ) : Option ℚ :=
  ((lows.drop (lows.length - lookback)).min?)

/-- `calculate_order_info` (src/order_info.py).  The two data-provider calls
are replaced by their results: `current_price` (from `get_current_price`) and
the fetched `Low` column (for the swing low).  Failure paths are `Except.error`:
a non-positive/unobtainable price raises, `risk_per_share <= 0` raises, and an
empty frame makes `swing_low` NaN so that `int(NaN)` in the position-size line
raises a `ValueError` as well. -/
def calculate_order_info (current_price total_assets risk_percent
    stop_loss_buffer risk_reward : ℚ) (lookback_days : ℕ) (lows : List ℚ) :
    Except String OrderInfo :=
  if current_price ≤ 0 then .error "Unable to get current price"
  else
    match find_recent_swing_low lows lookback_days with
    | none => .error "cannot convert float NaN to integer"
    | some swing_low =>
      let stop_loss_price := swing_low * (1 - stop_loss_buffer / 100)
      let stop_loss_percent := (current_price - stop_loss_price) / current_price * 100
      let risk_amount := total_assets * (risk_percent / 100)
      let risk_per_share := current_price - stop_loss_price
      if risk_per_share ≤ 0 then .error "Invalid stop loss"
      else
        let position_size_shares := ratTrunc (risk_amount / risk_per_share)
        let position_size_value := (position_size_shares : ℚ) * current_price
        let reward_amount := risk_amount * risk_reward
        let profit_per_share := risk_per_share * risk_reward
        let take_profit_price := current_price + profit_per_share
        let take_profit_percent := profit_per_share / current_price * 100
        .ok
          { current_price := current_price
            entry_price := current_price
            position_size_shares := position_size_shares
            position_size_value := position_size_value
            stop_loss_price := stop_loss_price
            stop_loss_percent := stop_loss_percent
            take_profit_price := take_profit_price
            take_profit_percent := take_profit_percent
            risk_amount := risk_amount
            reward_amount := reward_amount
            risk_reward_ratio := risk_reward }

/-! ## Concrete inputs used by the witnesses and counterexamples -/

/-- A 4-row frame whose (short > long) states are F, F, T, F: a golden cross
at row 2 and a dead cross at row 3, with no transition at row 1. -/
def maFrameA : List MARow :=
  [⟨0, 10, some 1, some 2⟩, ⟨1, 11, some 1, some 2⟩,
   ⟨2, 12, some 3, some 2⟩, ⟨3, 13, some 1, some 2⟩]

/-- A 3-row frame whose first two rows have undefined moving averages. -/
def maFrameB : List MARow :=
  [⟨0, 10, none, none⟩, ⟨1, 11, none, none⟩, ⟨2, 12, some 3, some 2⟩]

/-- 100 bars: 99 closes at 10, then one at 100.  SMA_25 overtakes SMA_75 at
the last bar, so a position is opened there and is still open at series end. -/
def wCloses : List ℚ := List.replicate 99 10 ++ [100]

/-- 100 constant bars: the SMAs coincide everywhere, so no cross ever fires. -/
def cCloses : List ℚ := List.replicate 100 10

/-- The backtest result of `wCloses`: one force-closed trade entered and
exited at the last bar. -/
def btResW : BacktestResult :=
  { total_trades := 1, winning_trades := 0, losing_trades := 1,
    win_rate := 0, avg_return := 0, total_return := 0, max_drawdown := 0,
    trades := [⟨99, 100, some 99, some 100⟩] }

/-- A monotonically increasing 15-point series. -/
def upSeries15 : List ℚ := [1, 2, 3, 4, 5, 6, 7, 8, 9, 10, 11, 12, 13, 14, 15]

/-- The number of open positions carried by a state: 1 if a trade is open. -/
def curOne (st : BtState) : ℕ := if st.current.isSome then 1 else 0

/-! ## C1: the MA crossover scan -/

/-- C1: the claim fails on the code, and the code contradicts its own
docstring ("Detect Golden Cross and Dead Cross signals").  Pandas `diff` on
the *boolean* `short_above` column is XOR, so `crossover == True` marks every
state flip in either direction and `crossover == False` marks every unchanged
row.  On `maFrameA` (states F, F, T, F) the code emits a dead cross at row 1
where no transition happens, and a golden cross at row 3 where the transition
is True→False; the spec's transition detector emits golden at row 2 and dead
at row 3.  On `maFrameB` the code fires inside and immediately after the
undefined-MA region, where the spec emits nothing. -/
theorem detect_ma_crossovers_xor_bug :
    detect_ma_crossovers maFrameA =
      [⟨SignalType.dead_cross, 1, 11, false⟩, ⟨SignalType.golden_cross, 2, 12, true⟩,
       ⟨SignalType.golden_cross, 3, 13, true⟩] ∧
    spec_ma_crossovers maFrameA =
      [⟨SignalType.golden_cross, 2, 12, true⟩, ⟨SignalType.dead_cross, 3, 13, false⟩] ∧
    detect_ma_crossovers maFrameB =
      [⟨SignalType.dead_cross, 1, 11, false⟩, ⟨SignalType.golden_cross, 2, 12, true⟩] ∧
    spec_ma_crossovers maFrameB = [] := by
  with_unfolding_all decide

/-! ## C9: the EMA recurrence -/

/-- The length of the EMA recurrence tail equals the input length. -/
theorem emaGo_length (a : ℚ) : ∀ (p : ℚ) (l : List ℚ), (emaGo a p l).length = l.length
  | _, [] => rfl
  | p, x :: xs => by simp [emaGo, emaGo_length a _ xs]

/-- The EMA recurrence tail satisfies the defining recurrence pointwise. -/
theorem emaGo_rec (a : ℚ) :
    ∀ (l : List ℚ) (p : ℚ) (i : ℕ) (x y : ℚ), l[i + 1]? = some x →
      (emaGo a p l)[i]? = some y → (emaGo a p l)[i + 1]? = some (a * x + (1 - a) * y)
  | [], _, i, x, y, h1, _ => by simp at h1
  | z :: zs, p, 0, x, y, h1, h2 => by
    simp only [List.getElem?_cons_succ] at h1
    simp only [emaGo, List.getElem?_cons_zero, Option.some.injEq] at h2
    cases zs with
    | nil => simp at h1
    | cons w ws =>
      simp only [List.getElem?_cons_zero, Option.some.injEq] at h1
      simp [emaGo, h1, h2]
  | z :: zs, p, i + 1, x, y, h1, h2 => by
    simp only [List.getElem?_cons_succ] at h1
    simp only [emaGo, List.getElem?_cons_succ] at h2 ⊢
    exact emaGo_rec a zs _ i x y h1 h2

/-- C9: `calculate_ema` realises the reference recurrence with
`a = 2/(window+1)`: the output has one value per input row, the first output
equals the first input (no bias correction), and every later output satisfies
`EMA[i+1] = a*x[i+1] + (1-a)*EMA[i]`. -/
theorem ema_recurrence (data : List ℚ) (w : ℕ) :
    (calculate_ema data w).length = data.length ∧
    (calculate_ema data w).head? = data.head? ∧
    (∀ (i : ℕ) (x y : ℚ), data[i + 1]? = some x → (calculate_ema data w)[i]? = some y →
      (calculate_ema data w)[i + 1]? =
        some (2 / ((w : ℚ) + 1) * x + (1 - 2 / ((w : ℚ) + 1)) * y)) := by
  cases data with
  | nil => refine ⟨rfl, rfl, ?_⟩; intro i x y h1 _; simp at h1
  | cons z zs =>
    refine ⟨by simp [calculate_ema, emaGo_length], rfl, ?_⟩
    intro i x y h1 h2
    cases i with
    | zero =>
      simp only [List.getElem?_cons_succ] at h1
      simp only [calculate_ema, List.getElem?_cons_zero, Option.some.injEq] at h2
      cases zs with
      | nil => simp at h1
      | cons u us =>
        simp only [List.getElem?_cons_zero, Option.some.injEq] at h1
        simp [calculate_ema, emaGo, h1, h2]
    | succ i =>
      simp only [List.getElem?_cons_succ] at h1
      simp only [calculate_ema, List.getElem?_cons_succ] at h2 ⊢
      exact emaGo_rec _ zs _ i x y h1 h2

/-- Witness for C9 at the concrete series [4, 8, 16] with window 3
(smoothing factor 1/2): the recurrence step from EMA[0] = 4 under x[1] = 8. -/
theorem ema_recurrence_witness :
    ([4, 8, 16] : List ℚ)[1]? = some 8 ∧
    (calculate_ema [4, 8, 16] 3)[0]? = some 4 ∧
    (calculate_ema [4, 8, 16] 3)[1]? =
      some (2 / ((3 : ℚ) + 1) * 8 + (1 - 2 / ((3 : ℚ) + 1)) * 4) :=
  ⟨by with_unfolding_all rfl, by with_unfolding_all rfl,
    (ema_recurrence [4, 8, 16] 3).2.2 0 8 4 (by with_unfolding_all rfl)
      (by with_unfolding_all rfl)⟩

/-! ## C5 and C6: order sizing -/

/-- C5: for every configuration with a positive current price strictly above
the computed stop, `calculate_order_info` returns the fixed-fractional order:
stop at `swing_low * (1 - buffer/100)`, risk amount `assets * risk%/100`,
shares `⌊risk_amount / risk_per_share⌋`, value `shares * price`, take profit
`price + risk_per_share * risk_reward`; and the spec's concrete scenario
(assets 100000, risk 2 %, price 100, swing low 90, buffer 5 %) yields
stop 85.5, risk amount 2000 and 137 shares. -/
theorem order_info_formulas :
    (∀ (cp ta rp slb rr : ℚ) (lb : ℕ) (lows : List ℚ) (sl : ℚ),
      find_recent_swing_low lows lb = some sl →
      0 < cp → 0 ≤ ta → 0 ≤ rp →
      sl * (1 - slb / 100) < cp →
      calculate_order_info cp ta rp slb rr lb lows = .ok
        { current_price := cp
          entry_price := cp
          position_size_shares := ⌊ta * (rp / 100) / (cp - sl * (1 - slb / 100))⌋
          position_size_value := (⌊ta * (rp / 100) / (cp - sl * (1 - slb / 100))⌋ : ℚ) * cp
          stop_loss_price := sl * (1 - slb / 100)
          stop_loss_percent := (cp - sl * (1 - slb / 100)) / cp * 100
          take_profit_price := cp + (cp - sl * (1 - slb / 100)) * rr
          take_profit_percent := (cp - sl * (1 - slb / 100)) * rr / cp * 100
          risk_amount := ta * (rp / 100)
          reward_amount := ta * (rp / 100) * rr
          risk_reward_ratio := rr }) ∧
    calculate_order_info 100 100000 2 5 2 20 [95, 90, 92] = .ok
      { current_price := 100, entry_price := 100,
        position_size_shares := 137, position_size_value := 13700,
        stop_loss_price := 85.5, stop_loss_percent := 14.5,
        take_profit_price := 129, take_profit_percent := 29,
        risk_amount := 2000, reward_amount := 4000, risk_reward_ratio := 2 } := by
  constructor
  · intro cp ta rp slb rr lb lows sl hsl hcp hta hrp hlt
    have hrps : ¬ cp - sl * (1 - slb / 100) ≤ 0 := by linarith
    have hq : (0 : ℚ) ≤ ta * (rp / 100) / (cp - sl * (1 - slb / 100)) := by
      apply div_nonneg (mul_nonneg hta (by positivity)) (by linarith)
    simp only [calculate_order_info, if_neg (not_le.mpr hcp), hsl, if_neg hrps,
      ratTrunc, if_pos hq]
  · with_unfolding_all rfl

/-- Witness for C5: the generic formula applied at the concrete scenario. -/
theorem order_info_formulas_witness :
    calculate_order_info 100 100000 2 5 2 20 [95, 90, 92] = .ok
      { current_price := 100
        entry_price := 100
        position_size_shares := ⌊(100000 : ℚ) * (2 / 100) / (100 - 90 * (1 - 5 / 100))⌋
        position_size_value :=
          (⌊(100000 : ℚ) * (2 / 100) / (100 - 90 * (1 - 5 / 100))⌋ : ℚ) * 100
        stop_loss_price := 90 * (1 - 5 / 100)
        stop_loss_percent := (100 - 90 * (1 - 5 / 100)) / 100 * 100
        take_profit_price := 100 + (100 - 90 * (1 - 5 / 100)) * 2
        take_profit_percent := (100 - 90 * (1 - 5 / 100)) * 2 / 100 * 100
        risk_amount := 100000 * (2 / 100)
        reward_amount := 100000 * (2 / 100) * 2
        risk_reward_ratio := 2 } :=
  order_info_formulas.1 100 100000 2 5 2 20 [95, 90, 92] 90
    (by with_unfolding_all rfl) (by norm_num) (by norm_num) (by norm_num) (by norm_num)

/-- C6: with a positive, obtainable current price, `calculate_order_info`
fails exactly when `risk_per_share = current_price - stop_loss_price ≤ 0`,
and for such inputs it never returns an `OrderInfo` (in particular no
silently-sized zero-share order). -/
theorem order_info_error_iff (cp ta rp slb rr : ℚ) (lb : ℕ) (lows : List ℚ) (sl : ℚ)
    (hcp : 0 < cp) (hsl : find_recent_swing_low lows lb = some sl) :
    ((∃ msg, calculate_order_info cp ta rp slb rr lb lows = .error msg) ↔
      cp - sl * (1 - slb / 100) ≤ 0) ∧
    (cp - sl * (1 - slb / 100) ≤ 0 →
      ∀ o, calculate_order_info cp ta rp slb rr lb lows ≠ .ok o) := by
  by_cases hrps : cp - sl * (1 - slb / 100) ≤ 0
  · simp only [calculate_order_info, if_neg (not_le.mpr hcp), hsl, if_pos hrps]
    refine ⟨⟨fun _ => hrps, fun _ => ⟨_, rfl⟩⟩, ?_⟩
    intro _ o h
    cases h
  · simp only [calculate_order_info, if_neg (not_le.mpr hcp), hsl, if_neg hrps]
    refine ⟨⟨?_, fun h => absurd h hrps⟩, fun h => absurd h hrps⟩
    rintro ⟨msg, h⟩
    cases h

/-- Witness for C6: a current price of 50 sits below the computed stop 85.5,
so the calculator raises instead of returning an order. -/
theorem order_info_error_iff_witness :
    ∃ msg, calculate_order_info 50 100000 2 5 2 20 [95, 90, 92] = .error msg :=
  (order_info_error_iff 50 100000 2 5 2 20 [95, 90, 92] 90 (by norm_num)
    (by with_unfolding_all rfl)).1.mpr (by norm_num)

/-! ## C3 and C8: RSI warm-up and bounds -/

/-- The rolling-mean output indexed inside the series. -/
theorem rollingMean_getElem (data : List ℚ) (w i : ℕ) (h : i < data.length) :
    (rollingMean data w)[i]? =
      some (if i + 1 < w then none
            else some (((data.drop (i + 1 - w)).take w).sum / (w : ℚ))) := by
  simp [rollingMean, List.getElem?_range h]

/-- The rolling mean has one output entry per input entry. -/
theorem rollingMean_length (data : List ℚ) (w : ℕ) :
    (rollingMean data w).length = data.length := by
  simp [rollingMean]

theorem diffGo_length (p : ℚ) (l : List ℚ) : (diffGo p l).length = l.length := by
  induction l generalizing p with
  | nil => rfl
  | cons x xs ih => simp [diffGo, ih]

/-- `diff` has one output entry per input entry. -/
theorem diffList_length (data : List ℚ) : (diffList data).length = data.length := by
  cases data with
  | nil => rfl
  | cons x xs => simp [diffList, diffGo_length]

/-- Gains are nonnegative (a negative or NaN delta is replaced by 0). -/
theorem gainOf_nonneg (d : Option ℚ) : 0 ≤ gainOf d := by
  cases d with
  | none => simp [gainOf]
  | some x =>
    simp only [gainOf]
    split <;> linarith

/-- Losses are nonnegative (a positive or NaN delta is replaced by 0). -/
theorem lossOf_nonneg (d : Option ℚ) : 0 ≤ lossOf d := by
  cases d with
  | none => simp [lossOf]
  | some x =>
    simp only [lossOf]
    split <;> linarith

/-- A defined rolling mean of a pointwise-nonnegative series is nonnegative. -/
theorem rollingMean_nonneg {data : List ℚ} {w i : ℕ} {q : ℚ}
    (hd : ∀ x ∈ data, 0 ≤ x) (h : (rollingMean data w)[i]? = some (some q)) :
    0 ≤ q := by
  rcases Nat.lt_or_ge i data.length with hi | hi
  · rw [rollingMean_getElem data w i hi, Option.some_inj] at h
    split at h
    · cases h
    · rw [Option.some_inj] at h
      subst h
      refine div_nonneg (List.sum_nonneg ?_) (by positivity)
      intro x hx
      exact hd x (List.mem_of_mem_drop (List.mem_of_mem_take hx))
  · rw [List.getElem?_eq_none (by simpa [rollingMean_length] using hi)] at h
    cases h

/-- C3 counterexample: with window 2 over [1, 2, 3] the RSI is already
defined (and equal to 100) at index 1, inside the first `window` positions
that the claim asserts to be undefined. -/
theorem rsi_defined_within_first_window :
    (calculate_rsi [1, 2, 3] 2)[1]? = some (some 100) ∧
    ¬ (∀ i, i < 2 → (calculate_rsi [1, 2, 3] 2)[i]? = some none) := by
  constructor
  · with_unfolding_all rfl
  · intro hall
    have := hall 1 (by decide)
    rw [(by with_unfolding_all rfl :
      (calculate_rsi [1, 2, 3] 2)[1]? = some (some 100))] at this
    cases this

/-- C3 amended: the RSI output is the undefined marker at each of the first
`window - 1` positions (the `where` fill turns the leading NaN delta into a
zero gain/loss, so the averages — hence the RSI — can already be defined at
index `window - 1`, one bar earlier than the claim states). -/
theorem rsi_undefined_before_window (data : List ℚ) (w i : ℕ)
    (hiw : i + 1 < w) (hlen : i < data.length) :
    (calculate_rsi data w)[i]? = some none := by
  have hg : (rollingMean ((diffList data).map gainOf) w)[i]? = some none := by
    rw [rollingMean_getElem _ w i (by simpa [diffList_length] using hlen)]
    simp [hiw]
  have hl : (rollingMean ((diffList data).map lossOf) w)[i]? = some none := by
    rw [rollingMean_getElem _ w i (by simpa [diffList_length] using hlen)]
    simp [hiw]
  simp [calculate_rsi, List.getElem?_zipWith, hg, hl, rsiPoint]

/-- Witness for the amended C3 at window 3, index 1 of a 3-point series. -/
theorem rsi_undefined_before_window_witness :
    1 + 1 < 3 ∧ 1 < ([1, 2, 3] : List ℚ).length ∧
      (calculate_rsi [1, 2, 3] 3)[1]? = some none :=
  ⟨by decide, by decide, rsi_undefined_before_window [1, 2, 3] 3 1 (by decide) (by decide)⟩

/-- C8: every defined RSI value lies in [0, 100], and over the monotonically
increasing 15-point series the average loss is 0 with positive average gain,
so RSI(14) saturates to exactly 100 at the 15th point (index 14) instead of
erroring or being undefined. -/
theorem rsi_bounded_saturates :
    (∀ (data : List ℚ) (w i : ℕ) (v : ℚ), 0 < w →
      (calculate_rsi data w)[i]? = some (some v) → 0 ≤ v ∧ v ≤ 100) ∧
    (calculate_rsi upSeries15 14)[14]? = some (some 100) := by
  constructor
  · intro data w i v hw h
    simp only [calculate_rsi] at h
    obtain ⟨go, lo, hg, hl, hf⟩ := List.getElem?_zipWith_eq_some.mp h
    rcases go with _ | g
    · simp [rsiPoint] at hf
    rcases lo with _ | l
    · simp [rsiPoint] at hf
    have hg0 : 0 ≤ g := by
      refine rollingMean_nonneg ?_ hg
      intro x hx
      obtain ⟨d, _, rfl⟩ := List.mem_map.mp hx
      exact gainOf_nonneg d
    have hl0 : 0 ≤ l := by
      refine rollingMean_nonneg ?_ hl
      intro x hx
      obtain ⟨d, _, rfl⟩ := List.mem_map.mp hx
      exact lossOf_nonneg d
    simp only [rsiPoint] at hf
    split at hf
    · split at hf
      · cases hf
      · rw [Option.some_inj] at hf
        subst hf
        norm_num
    · rw [Option.some_inj] at hf
      subst hf
      rename_i hlne
      have hlpos : 0 < l := lt_of_le_of_ne hl0 (Ne.symm hlne)
      have hr0 : 0 ≤ g / l := div_nonneg hg0 hl0
      have hdpos : 0 < (100 : ℚ) / (1 + g / l) := by positivity
      have hdle : (100 : ℚ) / (1 + g / l) ≤ 100 :=
        div_le_self (by norm_num) (by linarith)
      constructor <;> linarith
  · with_unfolding_all rfl

/-- Witness for C8 at window 14, index 13 of the increasing series (the first
defined RSI entry, already saturated at 100). -/
theorem rsi_bounded_saturates_witness :
    (calculate_rsi upSeries15 14)[13]? = some (some 100) ∧
      0 ≤ (100 : ℚ) ∧ (100 : ℚ) ≤ 100 :=
  ⟨by with_unfolding_all rfl,
    (rsi_bounded_saturates.1 upSeries15 14 13 100 (by decide)
      (by with_unfolding_all rfl)).1,
    (rsi_bounded_saturates.1 upSeries15 14 13 100 (by decide)
      (by with_unfolding_all rfl)).2⟩

/-! ## C4: series shorter than the window -/

/-- When the series is shorter than the window, every rolling-mean entry is
the undefined marker. -/
theorem rollingMean_all_none {S : List ℚ} {W : ℕ} (h : S.length < W) :
    ∀ x ∈ rollingMean S W, x = none := by
  intro x hx
  obtain ⟨i, hi⟩ := List.mem_iff_getElem?.mp hx
  rcases Nat.lt_or_ge i S.length with hl | hl
  · rw [rollingMean_getElem S W i hl, Option.some_inj, if_pos (by omega)] at hi
    exact hi.symm
  · rw [List.getElem?_eq_none (by simpa [rollingMean_length] using hl)] at hi
    cases hi

/-- The EMA output has one entry per input entry. -/
theorem calculate_ema_length (S : List ℚ) (W : ℕ) :
    (calculate_ema S W).length = S.length := by
  cases S with
  | nil => rfl
  | cons x xs => simp [calculate_ema, emaGo_length]

/-- C4 counterexample: `calculate_ema` over a 1-point series with window 3
produces the *defined* row [5] — `ewm(span=w, adjust=False).mean()` emits a
value from the very first row, so a series shorter than the window does not
come out all-undefined. -/
theorem ema_short_series_defined :
    calculate_ema [5] 3 = [(5 : ℚ)] ∧ ([5] : List ℚ).length < 3 := by
  exact ⟨by with_unfolding_all rfl, by decide⟩

/-- C4 amended: for a series shorter than the window, SMA, RSI and all four
Bollinger columns are entirely the undefined marker, and none of the four
indicator functions errors (each output is total, with one row per input row);
EMA, however, is the exception: it is defined from the first row on, with
`EMA[0] = x[0]`. -/
theorem short_series_outputs (W : ℕ) (S : List ℚ) (k : ℚ) (h : S.length < W) :
    (∀ x ∈ calculate_sma S W, x = none) ∧
    (∀ x ∈ calculate_rsi S W, x = none) ∧
    (∀ x ∈ (calculate_bollinger_bands S W k).middle, x = none) ∧
    (∀ x ∈ (calculate_bollinger_bands S W k).upper, x = none) ∧
    (∀ x ∈ (calculate_bollinger_bands S W k).lower, x = none) ∧
    (∀ x ∈ (calculate_bollinger_bands S W k).bandwidth, x = none) ∧
    (calculate_sma S W).length = S.length ∧
    (calculate_ema S W).length = S.length ∧
    (calculate_rsi S W).length = S.length ∧
    (calculate_ema S W).head? = S.head? := by
  have hsma : ∀ x ∈ rollingMean S W, x = none := rollingMean_all_none h
  have hgain : ((diffList S).map gainOf).length < W := by
    simpa [diffList_length] using h
  have hmid : ∀ x ∈ (calculate_bollinger_bands S W k).middle, x = none := by
    simpa [calculate_bollinger_bands, calculate_sma] using hsma
  refine ⟨hsma, ?_, hmid, ?_, ?_, ?_, rollingMean_length S W, calculate_ema_length S W, ?_, ?_⟩
  · intro x hx
    obtain ⟨i, hi⟩ := List.mem_iff_getElem?.mp hx
    obtain ⟨go, lo, hg, hl, hf⟩ := List.getElem?_zipWith_eq_some.mp hi
    have : go = none := rollingMean_all_none hgain go (List.getElem?_mem hg)
    subst this
    simp [rsiPoint] at hf
    exact hf.symm
  · intro x hx
    obtain ⟨i, hi⟩ := List.mem_iff_getElem?.mp hx
    obtain ⟨m, s, hm, _, hf⟩ := List.getElem?_zipWith_eq_some.mp hi
    have : m = none := hsma m (List.getElem?_mem hm)
    subst this
    simp [optAdd] at hf
    exact hf.symm
  · intro x hx
    obtain ⟨i, hi⟩ := List.mem_iff_getElem?.mp hx
    obtain ⟨m, s, hm, _, hf⟩ := List.getElem?_zipWith_eq_some.mp hi
    have : m = none := hsma m (List.getElem?_mem hm)
    subst this
    simp [optSub] at hf
    exact hf.symm
  · intro x hx
    obtain ⟨y, hy, hxy⟩ := List.mem_map.mp hx
    obtain ⟨i, hi⟩ := List.mem_iff_getElem?.mp hy
    obtain ⟨d, m, _, hm, hf⟩ := List.getElem?_zipWith_eq_some.mp hi
    have : m = none := hsma m (List.getElem?_mem hm)
    subst this
    have hy0 : y = none := by
      simpa [optDiv] using hf.symm
    subst hy0
    simpa [optScale] using hxy.symm
  · simp [calculate_rsi, rollingMean_length, diffList_length]
  · cases S with
    | nil => rfl
    | cons x xs => rfl

/-- Witness for the amended C4 at window 3 over the 2-point series [1, 2]. -/
theorem short_series_outputs_witness :
    ([1, 2] : List ℚ).length < 3 ∧
    (calculate_sma [1, 2] 3).headD (some 37) = none ∧
    (calculate_ema [1, 2] 3).head? = some 1 :=
  ⟨by decide,
    (short_series_outputs 3 [1, 2] 2 (by decide)).1
      ((calculate_sma [1, 2] 3).headD (some 37)) (by with_unfolding_all decide),
    (short_series_outputs 3 [1, 2] 2 (by decide)).2.2.2.2.2.2.2.2.2⟩

/-! ## C2, C7, C10: the backtest engine -/

/-- A row cannot satisfy both cross predicates: `golden` requires
SMA_25 > SMA_75 and `dead` requires SMA_25 < SMA_75. -/
theorem cross_flags_exclusive (s l p q : Option ℚ) :
    ((cmpGT s l && cmpLE p q) && (cmpLT s l && cmpGE p q)) = false := by
  rcases s with _ | a
  · simp [cmpGT]
  rcases l with _ | b
  · simp [cmpGT]
  by_cases hba : b < a
  · simp [cmpLT, lt_asymm hba]
  · simp [cmpGT, hba]

/-- Every row built by `mkBtRows` has mutually exclusive cross flags. -/
theorem mkBtRows_flags :
    ∀ (l : List (ℚ × Option ℚ × Option ℚ)) (i : ℕ) (p q : Option ℚ) (r : BtRow),
      r ∈ mkBtRows i p q l → (r.golden && r.dead) = false := by
  intro l
  induction l with
  | nil => intro i p q r h; cases h
  | cons x rest ih =>
    intro i p q r h
    obtain ⟨c, s25, s75⟩ := x
    rcases List.mem_cons.mp h with h | h
    · subst h
      exact cross_flags_exclusive s25 s75 p q
    · exact ih _ _ _ r h

/-- A row with an undefined SMA is skipped by the loop. -/
theorem btStep_skip (st : BtState) (r : BtRow)
    (h : (r.sma25.isNone || r.sma75.isNone) = true) : btStep st r = st := by
  simp [btStep, h]

/-- A golden cross while flat opens a trade at the row's Close. -/
theorem btStep_open (st : BtState) (r : BtRow)
    (h1 : (r.sma25.isNone || r.sma75.isNone) = false) (h2 : r.golden = true)
    (h3 : st.current = none) :
    btStep st r = { st with current := some ⟨r.idx, r.close, none, none⟩ } := by
  simp [btStep, h1, h2, h3]

/-- A dead cross while long closes the open trade at the row's Close. -/
theorem btStep_close (st : BtState) (r : BtRow) (t : Trade)
    (h1 : (r.sma25.isNone || r.sma75.isNone) = false) (h3 : st.current = some t)
    (hd : r.dead = true) :
    btStep st r =
      { trades := st.trades ++ [{ t with exit_index := some r.idx, exit_price := some r.close }],
        current := none,
        equity := st.equity.headD 0 *
          (1 + (return_pct { t with exit_index := some r.idx, exit_price := some r.close }).getD 0
            / 100) :: st.equity } := by
  simp [btStep, h1, h3, hd]

/-- Without a cross event, a flat state is unchanged. -/
theorem btStep_idle_flat (st : BtState) (r : BtRow)
    (h1 : (r.sma25.isNone || r.sma75.isNone) = false) (hg : r.golden = false)
    (h3 : st.current = none) : btStep st r = st := by
  simp [btStep, h1, hg, h3]

/-- Without a dead cross, a long state is unchanged. -/
theorem btStep_idle_long (st : BtState) (r : BtRow) (t : Trade)
    (h1 : (r.sma25.isNone || r.sma75.isNone) = false) (h3 : st.current = some t)
    (hd : r.dead = false) : btStep st r = st := by
  simp [btStep, h1, h3, hd]

/-- The golden-cross flag of a row, as a count. -/
def gOne (r : BtRow) : ℕ := if r.golden then 1 else 0

/-- One loop step changes the closed-plus-open count by at most the row's
golden flag: opening consumes a golden cross, closing moves the open count
into the ledger, everything else is unchanged. -/
theorem btStep_count (st : BtState) (r : BtRow) :
    (btStep st r).trades.length + curOne (btStep st r) ≤
      st.trades.length + curOne st + gOne r := by
  by_cases h1 : (r.sma25.isNone || r.sma75.isNone) = true
  · rw [btStep_skip st r h1]
    omega
  · have h1f : (r.sma25.isNone || r.sma75.isNone) = false := Bool.eq_false_iff.mpr h1
    cases hc : st.current with
    | none =>
      by_cases hg : r.golden = true
      · rw [btStep_open st r h1f hg hc]
        have e2 : curOne st = 0 := by simp [curOne, hc]
        have e3 : gOne r = 1 := by simp [gOne, hg]
        simp [curOne, e2, e3]
      · have hgf : r.golden = false := by simpa using hg
        rw [btStep_idle_flat st r h1f hgf hc]
        omega
    | some t =>
      by_cases hd : r.dead = true
      · rw [btStep_close st r t h1f hc hd]
        have e2 : curOne st = 1 := by simp [curOne, hc]
        have e4 : curOne
            { trades := st.trades ++ [{ t with exit_index := some r.idx, exit_price := some r.close }],
              current := none,
              equity := st.equity.headD 0 *
                (1 + (return_pct { t with exit_index := some r.idx, exit_price := some r.close }).getD 0
                  / 100) :: st.equity } = 0 := rfl
        rw [e2, e4]
        simp only [List.length_append, List.length_cons, List.length_nil]
        omega
      · have hdf : r.dead = false := by simpa using hd
        rw [btStep_idle_long st r t h1f hc hdf]
        omega

/-- Folding the loop can close at most one trade per observed golden cross. -/
theorem btFold_count :
    ∀ (rows : List BtRow) (st : BtState),
      (rows.foldl btStep st).trades.length + curOne (rows.foldl btStep st) ≤
        st.trades.length + curOne st + (rows.filter (fun r => r.golden)).length := by
  intro rows
  induction rows with
  | nil => intro st; simp
  | cons r rest ih =>
    intro st
    have h1 := ih (btStep st r)
    have h2 := btStep_count st r
    have h3 : ((r :: rest).filter (fun r => r.golden)).length =
        gOne r + (rest.filter (fun r => r.golden)).length := by
      by_cases hgr : r.golden = true
      · rw [List.filter_cons, if_pos hgr]
        simp only [List.length_cons, gOne, if_pos hgr]
        omega
      · rw [List.filter_cons, if_neg hgr]
        simp only [gOne, if_neg hgr]
        omega
    simp only [List.foldl_cons]
    omega

/-- The loop over the empty series is the initial state. -/
theorem btLoop_nil : btLoop [] = btInit := rfl

/-- C2: the single-position discipline of `run_backtest_single`:
rows with an undefined SMA are inert; a golden cross while a position is open
opens nothing; a dead cross while flat closes nothing; the two cross flags
are mutually exclusive on every generated row; the trades closed by the loop
never outnumber the observed golden crosses; and a position still open after
the loop is force-closed at the last available Close, making the total count
one more than the closed count.  (At most one position can ever be open: the
whole position state is the single optional `current` trade.) -/
theorem backtest_single_position_invariants :
    (∀ (st : BtState) (r : BtRow), (r.sma25 = none ∨ r.sma75 = none) → btStep st r = st) ∧
    (∀ (st : BtState) (r : BtRow), r.golden = true → r.dead = false →
      st.current.isSome = true → btStep st r = st) ∧
    (∀ (st : BtState) (r : BtRow), r.dead = true → r.golden = false →
      st.current = none → btStep st r = st) ∧
    (∀ (closes : List ℚ) (r : BtRow), r ∈ calculate_golden_cross_signals closes →
      (r.golden && r.dead) = false) ∧
    (∀ closes : List ℚ, (btLoop closes).trades.length ≤ goldenCount closes) ∧
    (∀ closes : List ℚ, (btLoop closes).current.isSome = true →
      (run_backtest_core closes).trades.length = (btLoop closes).trades.length + 1 ∧
      ∃ t, (run_backtest_core closes).trades.getLast? = some t ∧
        t.exit_price = closes.getLast?) := by
  refine ⟨?_, ?_, ?_, ?_, ?_, ?_⟩
  · intro st r h
    have h1 : (r.sma25.isNone || r.sma75.isNone) = true := by
      rcases h with h | h <;> simp [h]
    simp [btStep, h1]
  · intro st r hg hd hcur
    by_cases h1 : (r.sma25.isNone || r.sma75.isNone) = true
    · simp [btStep, h1]
    · obtain ⟨t, ht⟩ := Option.isSome_iff_exists.mp hcur
      simp [btStep, h1, ht, hd]
  · intro st r hd hg hcur
    by_cases h1 : (r.sma25.isNone || r.sma75.isNone) = true
    · simp [btStep, h1]
    · simp [btStep, h1, hcur, hg]
  · intro closes r h
    exact mkBtRows_flags _ 0 none none r h
  · intro closes
    have h := btFold_count (calculate_golden_cross_signals closes) btInit
    have h0 : curOne btInit = 0 := rfl
    have hi : btInit.trades.length = 0 := rfl
    simp only [btLoop, goldenCount]
    omega
  · intro closes hcur
    cases closes with
    | nil => cases hcur
    | cons c0 cs =>
      obtain ⟨t, ht⟩ := Option.isSome_iff_exists.mp hcur
      obtain ⟨c, hc⟩ : ∃ c, (c0 :: cs).getLast? = some c := by
        cases h : (c0 :: cs).getLast? with
        | none => exact absurd (List.getLast?_eq_none_iff.mp h) (by simp)
        | some c => exact ⟨c, rfl⟩
      constructor
      · simp [run_backtest_core, forceClose, ht, hc]
      · refine ⟨{ t with exit_index := some ((c0 :: cs).length - 1), exit_price := some c }, ?_, ?_⟩
        · simp [run_backtest_core, forceClose, ht, hc, List.getLast?_concat]
        · simp [hc]

/-- Witness for C2 at concrete states, rows and series; the forced-close part
is exercised on `wCloses`, where a position is still open at the last bar. -/
theorem backtest_single_position_invariants_witness :
    btStep btInit ⟨0, 5, none, none, false, false⟩ = btInit ∧
    btStep ⟨[], some ⟨0, 1, none, none⟩, [100]⟩ ⟨1, 5, some 3, some 2, true, false⟩ =
      ⟨[], some ⟨0, 1, none, none⟩, [100]⟩ ∧
    btStep btInit ⟨1, 5, some 2, some 3, false, true⟩ = btInit ∧
    ((⟨0, 5, none, none, false, false⟩ : BtRow).golden &&
      (⟨0, 5, none, none, false, false⟩ : BtRow).dead) = false ∧
    (btLoop [5]).trades.length ≤ goldenCount [5] ∧
    (run_backtest_core wCloses).trades.length = (btLoop wCloses).trades.length + 1 :=
  ⟨backtest_single_position_invariants.1 _ _ (Or.inl rfl),
   backtest_single_position_invariants.2.1 _ _ rfl rfl rfl,
   backtest_single_position_invariants.2.2.1 _ _ rfl rfl rfl,
   backtest_single_position_invariants.2.2.2.1 [5] _ (by with_unfolding_all decide),
   backtest_single_position_invariants.2.2.2.2.1 [5],
   (backtest_single_position_invariants.2.2.2.2.2 wCloses (by with_unfolding_all rfl)).1⟩

/-- The loop invariant backing the metrics block: the equity curve is
nonempty, began at 100, its latest value compounds the per-trade returns of
the ledger, and every ledger trade is closed. -/
def BtInv (st : BtState) : Prop :=
  st.equity ≠ [] ∧
  st.equity.getLast? = some 100 ∧
  st.equity.headD 0 =
    (st.trades.filterMap return_pct).foldl (fun a r => a * (1 + r / 100)) 100 ∧
  ∀ t ∈ st.trades, (return_pct t).isSome = true

theorem btInit_inv : BtInv btInit :=
  ⟨by simp [btInit], rfl, rfl, by simp [btInit]⟩

/-- Closing a trade (by dead cross or force close) preserves the invariant. -/
theorem closeUpdate_inv (st : BtState) (t : Trade) (i : ℕ) (c : ℚ) (h : BtInv st) :
    BtInv { trades := st.trades ++ [{ t with exit_index := some i, exit_price := some c }],
            current := none,
            equity := st.equity.headD 0 *
              (1 + (return_pct { t with exit_index := some i, exit_price := some c }).getD 0
                / 100) :: st.equity } := by
  obtain ⟨h1, h2, h3, h4⟩ := h
  obtain ⟨e, es, he⟩ := List.exists_cons_of_ne_nil h1
  have hrp : return_pct { t with exit_index := some i, exit_price := some c } =
      some ((c - t.entry_price) / t.entry_price * 100) := rfl
  have hfm : List.filterMap return_pct [{ t with exit_index := some i, exit_price := some c }] =
      [(c - t.entry_price) / t.entry_price * 100] := by
    simp [List.filterMap_cons, hrp]
  refine ⟨by simp, ?_, ?_, ?_⟩
  · rw [he, List.getLast?_cons_cons, ← he]
    exact h2
  · rw [List.headD_cons, hrp, Option.getD_some, List.filterMap_append, hfm,
      List.foldl_append, ← h3]
    simp only [List.foldl_cons, List.foldl_nil]
  · intro t' ht'
    rcases List.mem_append.mp ht' with hm | hm
    · exact h4 t' hm
    · have : t' = { t with exit_index := some i, exit_price := some c } := by simpa using hm
      subst this
      simp [return_pct]

/-- Each loop step preserves the invariant. -/
theorem btStep_inv (st : BtState) (r : BtRow) (h : BtInv st) : BtInv (btStep st r) := by
  by_cases hA : (r.sma25.isNone || r.sma75.isNone) = true
  · rwa [btStep_skip st r hA]
  · have hAf : (r.sma25.isNone || r.sma75.isNone) = false := Bool.eq_false_iff.mpr hA
    cases hc : st.current with
    | none =>
      by_cases hg : r.golden = true
      · rw [btStep_open st r hAf hg hc]
        exact h
      · rwa [btStep_idle_flat st r hAf (Bool.eq_false_iff.mpr hg) hc]
    | some t =>
      by_cases hd : r.dead = true
      · rw [btStep_close st r t hAf hc hd]
        exact closeUpdate_inv st t r.idx r.close h
      · rwa [btStep_idle_long st r t hAf hc (Bool.eq_false_iff.mpr hd)]

/-- The whole loop preserves the invariant. -/
theorem btFold_inv : ∀ (rows : List BtRow) (st : BtState), BtInv st →
    BtInv (rows.foldl btStep st) := by
  intro rows
  induction rows with
  | nil => intro st h; exact h
  | cons r rest ih =>
    intro st h
    simp only [List.foldl_cons]
    exact ih _ (btStep_inv st r h)

/-- The force close preserves the invariant. -/
theorem forceClose_inv (closes : List ℚ) (st : BtState) (h : BtInv st) :
    BtInv (forceClose closes st) := by
  cases hc : st.current with
  | none => simpa [forceClose, hc] using h
  | some t =>
    cases hl : closes.getLast? with
    | none => simpa [forceClose, hc, hl] using h
    | some c =>
      have heq : forceClose closes st =
          { trades := st.trades ++
              [{ t with exit_index := some (closes.length - 1), exit_price := some c }]
            current := none
            equity := st.equity.headD 0 *
              (1 + (return_pct
                { t with exit_index := some (closes.length - 1), exit_price := some c }).getD 0
                / 100) :: st.equity } := by
        simp [forceClose, hc, hl]
      rw [heq]
      exact closeUpdate_inv st t (closes.length - 1) c h

/-- The state reached by the full core run satisfies the invariant. -/
theorem core_inv (closes : List ℚ) : BtInv (run_backtest_core closes) :=
  forceClose_inv closes _ (btFold_inv _ _ btInit_inv)

/-- A filterMap by a function that is defined on every element keeps the
length. -/
theorem filterMap_length_all_isSome :
    ∀ (l : List Trade), (∀ t ∈ l, (return_pct t).isSome = true) →
      (l.filterMap return_pct).length = l.length := by
  intro l
  induction l with
  | nil => intro _; rfl
  | cons x xs ih =>
    intro h
    obtain ⟨v, hv⟩ := Option.isSome_iff_exists.mp (h x (by simp))
    rw [List.filterMap_cons, hv]
    simp only [List.length_cons]
    rw [ih (fun t ht => h t (by simp [ht]))]

/-- Folding `min` can only go below the starting value. -/
theorem listMin_le_init : ∀ (l : List ℚ) (m : ℚ), listMin m l ≤ m := by
  intro l
  induction l with
  | nil => intro m; exact le_refl m
  | cons x xs ih =>
    intro m
    exact le_trans (ih (min m x)) (min_le_left m x)

/-- The maximum drawdown reported by the metrics block is never positive:
the first drawdown entry is 0 and the minimum can only be below it. -/
theorem btMetrics_mdd_nonpos (st : BtState) : (btMetrics st).max_drawdown ≤ 0 := by
  show listMin _ _ ≤ 0
  cases hcv : st.equity.reverse with
  | nil => simp [hcv, listMin]
  | cons e rest =>
    have hmax : expandingMax ((e :: rest).headD 0) (e :: rest) =
        e :: expandingMax e rest := by
      simp [expandingMax, max_self]
    rw [hmax]
    simp only [List.zipWith_cons_cons, List.headD_cons, List.drop_succ_cons, List.drop_zero,
      sub_self, zero_div, zero_mul]
    exact listMin_le_init _ 0

/-- C7: whenever `run_backtest_single` produces a result (non-empty ledger),
its aggregate metrics satisfy the spec formulas: win rate is the share of
strictly positive per-trade returns times 100; average return is the
arithmetic mean of the returns; the total compounded return comes from an
equity curve that starts at 100 and is multiplied by `1 + return/100` at each
close; and the maximum drawdown is never positive. -/
theorem backtest_metrics_formulas (closes : List ℚ) (res : BacktestResult)
    (h : run_backtest_single (some closes) = some res) :
    res.win_rate = ((res.trades.filterMap return_pct).countP (fun x => decide (0 < x)) : ℚ) /
        (res.total_trades : ℚ) * 100 ∧
    res.avg_return = (res.trades.filterMap return_pct).sum /
        ((res.trades.filterMap return_pct).length : ℚ) ∧
    res.total_return =
      ((res.trades.filterMap return_pct).foldl (fun a x => a * (1 + x / 100)) 100 / 100 - 1) *
        100 ∧
    res.max_drawdown ≤ 0 := by
  simp only [run_backtest_single] at h
  split at h
  · cases h
  · split at h
    · cases h
    · rename_i hlen hne
      have hres : res = btMetrics (run_backtest_core closes) := (Option.some_inj.mp h).symm
      subst hres
      have hinv := core_inv closes
      have htr : (run_backtest_core closes).trades ≠ [] := by
        intro hempty
        rw [hempty] at hne
        exact hne rfl
      have hlen0 : (run_backtest_core closes).trades.length ≠ 0 := by
        simpa [List.length_eq_zero] using htr
      have hfl : ((run_backtest_core closes).trades.filterMap return_pct).length =
          (run_backtest_core closes).trades.length :=
        filterMap_length_all_isSome _ hinv.2.2.2
      refine ⟨?_, ?_, ?_, btMetrics_mdd_nonpos _⟩
      · show (if (run_backtest_core closes).trades.length = 0 then (0 : ℚ) else _) = _
        rw [if_neg hlen0, List.countP_eq_length_filter]
        rfl
      · show (if ((run_backtest_core closes).trades.filterMap return_pct).length = 0
            then (0 : ℚ) else _) = _
        rw [if_neg (by rw [hfl]; exact hlen0)]
        rfl
      · have hts : (btMetrics (run_backtest_core closes)).trades =
            (run_backtest_core closes).trades := rfl
        show ((run_backtest_core closes).equity.reverse.getLast?.getD 0 /
            (run_backtest_core closes).equity.reverse.headD 0 - 1) * 100 = _
        rw [hts, List.getLast?_reverse, List.headD_eq_head?_getD, List.head?_reverse,
          hinv.2.1, Option.getD_some, ← hinv.2.2.1, List.headD_eq_head?_getD]

/-- Witness for C7 on the 100-bar series `wCloses` and its concrete result. -/
theorem backtest_metrics_formulas_witness :
    run_backtest_single (some wCloses) = some btResW ∧
    btResW.win_rate = ((btResW.trades.filterMap return_pct).countP (fun x => decide (0 < x)) : ℚ) /
        (btResW.total_trades : ℚ) * 100 ∧
    btResW.max_drawdown ≤ 0 :=
  ⟨by with_unfolding_all rfl,
   (backtest_metrics_formulas wCloses btResW (by with_unfolding_all rfl)).1,
   (backtest_metrics_formulas wCloses btResW (by with_unfolding_all rfl)).2.2.2⟩

/-- C10: a fetched series of 100 or more bars on which no golden cross ever
fires produces zero trades and makes `run_backtest_single` return no result,
and the portfolio loop counts such a symbol in `stocks_with_errors` exactly
like a failed fetch (`none`). -/
theorem zero_trade_counted_as_error (closes : List ℚ) (hlen : 100 ≤ closes.length)
    (hg : goldenCount closes = 0) :
    run_backtest_single (some closes) = none ∧
    portfolio_error_count [some closes] = 1 ∧
    portfolio_error_count [none] = 1 := by
  have hcount : (btLoop closes).trades.length + curOne (btLoop closes) ≤
      btInit.trades.length + curOne btInit +
        ((calculate_golden_cross_signals closes).filter (fun r => r.golden)).length :=
    btFold_count (calculate_golden_cross_signals closes) btInit
  have h0 : curOne btInit = 0 := rfl
  have hi : btInit.trades.length = 0 := rfl
  have hgf : ((calculate_golden_cross_signals closes).filter (fun r => r.golden)).length = 0 := hg
  have htr : (btLoop closes).trades = [] :=
    List.length_eq_zero.mp (by omega)
  have hcu : curOne (btLoop closes) = 0 := by omega
  have hcur : (btLoop closes).current = none := by
    cases hcc : (btLoop closes).current with
    | none => rfl
    | some t => simp [curOne, hcc] at hcu
  have hforce : run_backtest_core closes = btLoop closes := by
    simp [run_backtest_core, forceClose, hcur]
  have hs : run_backtest_single (some closes) = none := by
    simp only [run_backtest_single]
    rw [if_neg (by omega : ¬ closes.length < 100)]
    rw [if_pos (by simp [hforce, htr])]
  exact ⟨hs, by simp [portfolio_error_count, hs], by simp [portfolio_error_count,
    run_backtest_single]⟩

/-- Witness for C10 on 100 constant bars: the SMAs coincide, no golden cross
fires, and the symbol is reported as an error. -/
theorem zero_trade_counted_as_error_witness :
    run_backtest_single (some cCloses) = none ∧ portfolio_error_count [some cCloses] = 1 :=
  ⟨(zero_trade_counted_as_error cCloses (by with_unfolding_all decide)
      (by with_unfolding_all rfl)).1,
   (zero_trade_counted_as_error cCloses (by with_unfolding_all decide)
      (by with_unfolding_all rfl)).2.1⟩

end TA
